import Mathlib

/-!
Verification of the trajectory-refinement and route-reconciliation pipeline
of the map-check repository (src/src/App.jsx), as a shallow embedding.

Coordinates are modelled as exact rationals (the source carries them as
decimal strings and JavaScript doubles); the transcendental geometry
(haversine distance, forward-azimuth bearing) is modelled over the reals.
JavaScript 32-bit integer semantics in the polyline decoder are modelled
with explicit twos-complement wrapping on the integers.
-/

namespace MapCheck

/-- A trajectory point as carried through the pipeline: latitude and
longitude in decimal degrees plus the capture timestamp (`createdAt`). -/
structure Point where
  latitude : ℚ
  longitude : ℚ
  createdAt : ℤ
deriving DecidableEq

instance : Inhabited Point := ⟨⟨0, 0, 0⟩⟩

/-! ## GeoMath: distance and bearing (src/src/App.jsx lines 15-35) -/

/-- `toRadians` from the source. -/
noncomputable def toRadians (degrees : ℝ) : ℝ := degrees * Real.pi / 180

/-- `toDegrees` from the source. -/
noncomputable def toDegrees (radians : ℝ) : ℝ := radians * 180 / Real.pi

/-- JavaScript `Math.atan2(y, x)`, with range `(-pi, pi]`; modelled as the
complex argument of `x + y*I`. -/
noncomputable def atan2 (y x : ℝ) : ℝ := Complex.arg ⟨x, y⟩

/-- `calculateDistance` from the source: haversine great-circle distance,
Earth radius 6371000 m. -/
noncomputable def calculateDistance (lat1 lon1 lat2 lon2 : ℝ) : ℝ :=
  let R : ℝ := 6371000
  let dLat := toRadians (lat2 - lat1)
  let dLon := toRadians (lon2 - lon1)
  let a := Real.sin (dLat / 2) * Real.sin (dLat / 2) +
    Real.cos (toRadians lat1) * Real.cos (toRadians lat2) *
    Real.sin (dLon / 2) * Real.sin (dLon / 2)
  let c := 2 * atan2 (Real.sqrt a) (Real.sqrt (1 - a))
  R * c

/-- JavaScript `%` (remainder); both operands in this code base are
nonnegative, where `a % b = a - b * floor (a / b)`. -/
noncomputable def jsMod (a b : ℝ) : ℝ := a - b * (⌊a / b⌋ : ℤ)

/-- `calculateBearing` from the source: initial forward azimuth,
normalized into `[0, 360)` by `(deg + 360) % 360`. -/
noncomputable def calculateBearing (lat1 lon1 lat2 lon2 : ℝ) : ℝ :=
  let dLon := toRadians (lon2 - lon1)
  let y := Real.sin dLon * Real.cos (toRadians lat2)
  let x := Real.cos (toRadians lat1) * Real.sin (toRadians lat2) -
    Real.sin (toRadians lat1) * Real.cos (toRadians lat2) * Real.cos dLon
  jsMod (toDegrees (atan2 y x) + 360) 360

/-! ## KalmanSmoother (src/src/App.jsx lines 38-75) -/

/-- Process noise `q` from `applyKalmanFilter`. -/
def q : ℚ := 1 / 100000

/-- Measurement noise `r` from `applyKalmanFilter`. -/
def r : ℚ := 1 / 10000

/-- JavaScript `Number.prototype.toFixed(7)` on an exact rational:
round to 7 decimal places, to the nearest value, ties toward the larger
candidate. The source formats each smoothed coordinate this way. -/
def round7 (x : ℚ) : ℚ := (⌊x * 10 ^ 7 + 1 / 2⌋ : ℚ) / 10 ^ 7

/-- One covariance/gain/estimate update of `applyKalmanFilter`, i.e. the
block `p = p + q; k = p / (p + r); x = x + k * (m - x); p = (1 - k) * p`.
Returns the new `(p, x)`.  The new covariance (the first component)
depends only on the incoming `p`. -/
def kalmanStep (p x m : ℚ) : ℚ × ℚ :=
  let p1 := p + q
  let k := p1 / (p1 + r)
  ((1 - k) * p1, x + k * (m - x))

/-- The loop body of `applyKalmanFilter`: for each point the latitude
block updates `(p, xLat)` and then the longitude block updates the SAME
`p` together with `xLng`; the pushed output point carries both estimates
formatted with `toFixed(7)` and the original timestamp. -/
def kalmanLoop : List Point → ℚ → ℚ → ℚ → List Point
  | [], _, _, _ => []
  | point :: rest, xLat, xLng, p =>
    let s1 := kalmanStep p xLat point.latitude
    let s2 := kalmanStep s1.1 xLng point.longitude
    ⟨round7 s1.2, round7 s2.2, point.createdAt⟩ :: kalmanLoop rest s1.2 s2.2 s2.1

/-- `applyKalmanFilter` from the source: state is initialized from the
first point (`xLat`, `xLng`) with a single error covariance `p = 1.0`,
then every point (the first included) is run through the loop body. -/
def applyKalmanFilter : List Point → List Point
  | [] => []
  | p0 :: rest => kalmanLoop (p0 :: rest) p0.latitude p0.longitude 1

/-- Modelled from the spec (for refinement comparison with
`applyKalmanFilter`): a 1-D Kalman filter on a single measurement stream
in which the axis owns its error covariance, initialized to `1.0` and
updated once per incoming measurement by the claimed recurrence. -/
def kalman1D (x p : ℚ) : List ℚ → List ℚ
  | [] => []
  | m :: ms =>
    let s := kalmanStep p x m
    round7 s.2 :: kalman1D s.2 s.1 ms

/-- Modelled from the spec (for refinement comparison with
`applyKalmanFilter`): run `kalman1D` independently on the latitude stream
and the longitude stream (each axis with its own covariance, no
cross-axis covariance), initial estimates from the first point, keeping
the originating timestamps. -/
def kalmanPerAxisSpec (pts : List Point) : List Point :=
  match pts with
  | [] => []
  | p0 :: _ =>
    let lats := kalman1D p0.latitude 1 (pts.map Point.latitude)
    let lngs := kalman1D p0.longitude 1 (pts.map Point.longitude)
    (lats.zip (lngs.zip (pts.map Point.createdAt))).map fun t => ⟨t.1, t.2.1, t.2.2⟩

/-! ### Kalman lemmas -/

theorem kalmanStep_fst_eq (p x x1 m m1 : ℚ) :
    (kalmanStep p x m).1 = (kalmanStep p x1 m1).1 := rfl

theorem kalmanStep_snd_self (p x : ℚ) : (kalmanStep p x x).2 = x := by
  simp [kalmanStep]

theorem kalmanLoop_length (ps : List Point) :
    ∀ (xLat xLng p : ℚ), (kalmanLoop ps xLat xLng p).length = ps.length := by
  induction ps with
  | nil => intro xLat xLng p; rfl
  | cons a as ih => intro xLat xLng p; simp [kalmanLoop, ih]

theorem kalmanLoop_createdAt (ps : List Point) :
    ∀ (xLat xLng p : ℚ),
      (kalmanLoop ps xLat xLng p).map Point.createdAt = ps.map Point.createdAt := by
  induction ps with
  | nil => intro xLat xLng p; rfl
  | cons a as ih => intro xLat xLng p; simp [kalmanLoop, ih]

theorem kalmanLoop_latitude_eq (ps : List Point) :
    ∀ (qs : List Point) (xLat xLng1 xLng2 p : ℚ),
      ps.map Point.latitude = qs.map Point.latitude →
      (kalmanLoop ps xLat xLng1 p).map Point.latitude
        = (kalmanLoop qs xLat xLng2 p).map Point.latitude := by
  induction ps with
  | nil =>
    intro qs xLat xLng1 xLng2 p h
    cases qs with
    | nil => rfl
    | cons b bs => simp at h
  | cons a as ih =>
    intro qs xLat xLng1 xLng2 p h
    cases qs with
    | nil => simp at h
    | cons b bs =>
      simp only [List.map_cons, List.cons.injEq] at h
      obtain ⟨hab, hrest⟩ := h
      simp only [kalmanLoop, List.map_cons]
      rw [hab]
      exact congrArg _ (ih bs _ _ _ _ hrest)

theorem kalmanLoop_longitude_eq (ps : List Point) :
    ∀ (qs : List Point) (xLng xLat1 xLat2 p : ℚ),
      ps.map Point.longitude = qs.map Point.longitude →
      (kalmanLoop ps xLat1 xLng p).map Point.longitude
        = (kalmanLoop qs xLat2 xLng p).map Point.longitude := by
  induction ps with
  | nil =>
    intro qs xLng xLat1 xLat2 p h
    cases qs with
    | nil => rfl
    | cons b bs => simp at h
  | cons a as ih =>
    intro qs xLng xLat1 xLat2 p h
    cases qs with
    | nil => simp at h
    | cons b bs =>
      simp only [List.map_cons, List.cons.injEq] at h
      obtain ⟨hab, hrest⟩ := h
      simp only [kalmanLoop, List.map_cons]
      rw [hab]
      exact congrArg _ (ih bs _ _ _ _ hrest)

/-- Claim C1 (counterexample): the code does NOT run the claimed per-axis
recurrence: on the concrete two-point input below, the latitude outputs
of `applyKalmanFilter` (one covariance `p` shared by both axes) differ
from the outputs of the claimed per-axis recurrence `kalmanPerAxisSpec`
(each axis owning its covariance, initialized to 1.0, updated once per
point per axis). -/
theorem c1_counterexample :
    (applyKalmanFilter [⟨0, 0, 0⟩, ⟨1, 0, 0⟩]).map Point.latitude
      ≠ (kalmanPerAxisSpec [⟨0, 0, 0⟩, ⟨1, 0, 0⟩]).map Point.latitude := by
  norm_num [applyKalmanFilter, kalmanLoop, kalmanStep, kalmanPerAxisSpec, kalman1D,
    round7, q, r]

/-- Claim C1 (amended): `applyKalmanFilter` maintains a SINGLE error
covariance `p` shared by the latitude and longitude axes, initialized to
1.0 and updated twice per incoming point (once in the latitude block,
once in the longitude block) with `q = 0.00001`, `r = 0.0001`; the
claimed per-axis covariance recurrence does not hold.  Because the gain
sequence is measurement-independent, the latitude outputs are still
determined by the latitude measurements alone (no output cross-axis
dependence), and symmetrically for longitude. -/
theorem c1_theorem :
    (∀ ps qs : List Point, ps.map Point.latitude = qs.map Point.latitude →
      (applyKalmanFilter ps).map Point.latitude
        = (applyKalmanFilter qs).map Point.latitude) ∧
    (∀ ps qs : List Point, ps.map Point.longitude = qs.map Point.longitude →
      (applyKalmanFilter ps).map Point.longitude
        = (applyKalmanFilter qs).map Point.longitude) := by
  constructor
  · intro ps qs h
    cases ps with
    | nil => cases qs with
      | nil => rfl
      | cons b bs => simp at h
    | cons a as => cases qs with
      | nil => simp at h
      | cons b bs =>
        have hab : a.latitude = b.latitude := by
          simpa using congrArg (fun l => l.headI) h
        simp only [applyKalmanFilter]
        rw [hab]
        exact kalmanLoop_latitude_eq (a :: as) (b :: bs) b.latitude a.longitude b.longitude 1 h
  · intro ps qs h
    cases ps with
    | nil => cases qs with
      | nil => rfl
      | cons b bs => simp at h
    | cons a as => cases qs with
      | nil => simp at h
      | cons b bs =>
        have hab : a.longitude = b.longitude := by
          simpa using congrArg (fun l => l.headI) h
        simp only [applyKalmanFilter]
        rw [hab]
        exact kalmanLoop_longitude_eq (a :: as) (b :: bs) b.longitude a.latitude b.latitude 1 h

/-- Witness for `c1_theorem` at a concrete input: two single-point
sequences agreeing on latitude but not on longitude or timestamp. -/
theorem c1_witness :
    ([⟨1, 5, 0⟩] : List Point).map Point.latitude
        = ([⟨1, 9, 3⟩] : List Point).map Point.latitude ∧
      (applyKalmanFilter [⟨1, 5, 0⟩]).map Point.latitude
        = (applyKalmanFilter [⟨1, 9, 3⟩]).map Point.latitude :=
  ⟨rfl, c1_theorem.1 [⟨1, 5, 0⟩] [⟨1, 9, 3⟩] rfl⟩

/-- Claim C4 (counterexample): the first output of `applyKalmanFilter`
does not equal the first input exactly: the source formats outputs with
`toFixed(7)`, so an input coordinate with more than 7 decimal places
(latitude 0.12345678 here) is rounded (to 0.1234568). -/
theorem c4_counterexample :
    applyKalmanFilter [⟨12345678 / 100000000, 0, 0⟩]
      ≠ [⟨12345678 / 100000000, 0, 0⟩] := by
  norm_num [applyKalmanFilter, kalmanLoop, kalmanStep, round7, q, r, Point.mk.injEq]

/-- Claim C4 (amended): for every non-empty input, `applyKalmanFilter`
output has the same length as the input and keeps every originating
timestamp, and — because the initial state is set to the raw coordinates of the first point — 
raw coordinates — the first output element equals the first input
element with its coordinates rounded to 7 decimal places (`toFixed(7)`);
it equals the first input exactly whenever those coordinates are
representable at 7 decimal places. -/
theorem c4_theorem (pts : List Point) (h : pts ≠ []) :
    (applyKalmanFilter pts).length = pts.length ∧
    (applyKalmanFilter pts).map Point.createdAt = pts.map Point.createdAt ∧
    (applyKalmanFilter pts).headI
      = ⟨round7 pts.headI.latitude, round7 pts.headI.longitude, pts.headI.createdAt⟩ := by
  match pts, h with
  | p0 :: rest, _ =>
    refine ⟨kalmanLoop_length _ _ _ _, kalmanLoop_createdAt _ _ _ _, ?_⟩
    show (kalmanLoop (p0 :: rest) p0.latitude p0.longitude 1).headI = _
    simp only [kalmanLoop, List.headI]
    rw [kalmanStep_snd_self]
    have h2 : (kalmanStep (kalmanStep 1 p0.latitude p0.latitude).1
        p0.longitude p0.longitude).2 = p0.longitude := kalmanStep_snd_self _ _
    rw [h2]

/-- Witness for `c4_theorem` at the concrete one-point input
`(1, 2, timestamp 3)`. -/
theorem c4_witness :
    ([⟨1, 2, 3⟩] : List Point) ≠ [] ∧
      ((applyKalmanFilter [⟨1, 2, 3⟩]).length = ([⟨1, 2, 3⟩] : List Point).length ∧
       (applyKalmanFilter [⟨1, 2, 3⟩]).map Point.createdAt
          = ([⟨1, 2, 3⟩] : List Point).map Point.createdAt ∧
       (applyKalmanFilter [⟨1, 2, 3⟩]).headI
          = ⟨round7 (([⟨1, 2, 3⟩] : List Point).headI.latitude),
             round7 (([⟨1, 2, 3⟩] : List Point).headI.longitude),
             ([⟨1, 2, 3⟩] : List Point).headI.createdAt⟩) :=
  ⟨by decide, c4_theorem [⟨1, 2, 3⟩] (by decide)⟩

/-! ## PolylineCodec (src/src/App.jsx lines 302-331)

The decoder works on the UTF-16 code units of the encoded string
(`charCodeAt`).  JavaScript bitwise operators act on 32-bit
twos-complement integers; this is modelled explicitly below. -/

/-- JavaScript `ToInt32`: the low 32 bits of an integer reinterpreted as
a signed 32-bit value. -/
def toInt32 (n : ℤ) : ℤ := (n + 2 ^ 31).emod (2 ^ 32) - 2 ^ 31

/-- The unsigned 32-bit twos-complement bit pattern of an integer. -/
def bits32 (n : ℤ) : ℕ := (n.emod (2 ^ 32)).toNat

/-- JavaScript 32-bit `|`: bitwise or of the twos-complement patterns
of the operands, reinterpreted as signed. -/
def jsOr32 (a b : ℤ) : ℤ := toInt32 (Nat.lor (bits32 a) (bits32 b))

/-- The inner `do { b = encoded.charCodeAt(index++) - 63; result |=
(b & 0x1f) << shift; shift += 5 } while (b >= 0x20)` loop of
`decodePolyline`, reading from the remaining character codes.  Reading
past the end of the string (`charCodeAt` = NaN) behaves as a
non-continuation byte contributing no bits, so the empty list
terminates the loop with `result` unchanged.  `b & 0x1f` is the
nonnegative residue of `b` modulo 32, the shift count is taken modulo
32, and the accumulation is a 32-bit or. -/
def decodeVarint : List ℕ → ℕ → ℤ → List ℕ × ℤ
  | [], _, result => ([], result)
  | c :: rest, shift, result =>
    let b : ℤ := (c : ℤ) - 63
    let result1 := jsOr32 result (toInt32 (b.emod 32 * 2 ^ (shift % 32)))
    if 32 ≤ b then decodeVarint rest (shift + 5) result1
    else (rest, result1)

/-- The sign decode `((result & 1) ? ~(result >> 1) : (result >> 1))`:
`>>` is the sign-propagating shift (floor division by 2 of the signed
value) and `~x = -x - 1`. -/
def zigzagDecode (result : ℤ) : ℤ :=
  if result.emod 2 = 1 then -(result.fdiv 2) - 1 else result.fdiv 2

/-- The outer `while (index < len)` loop of `decodePolyline`, with an
explicit iteration bound: each iteration consumes at least one
character, so `encoded.length` iterations always suffice (the
termination theorem below makes this precise). -/
def decodeLoop : ℕ → List ℕ → ℤ → ℤ → List (ℚ × ℚ)
  | 0, _, _, _ => []
  | _ + 1, [], _, _ => []
  | fuel + 1, c :: rest, lat, lng =>
    let v1 := decodeVarint (c :: rest) 0 0
    let lat1 := lat + zigzagDecode v1.2
    let v2 := decodeVarint v1.1 0 0
    let lng1 := lng + zigzagDecode v2.2
    ((lat1 : ℚ) / 100000, (lng1 : ℚ) / 100000) :: decodeLoop fuel v2.1 lat1 lng1

/-- `decodePolyline` from the source: both delta accumulators start at
0 and each iteration pushes `[lat / 1e5, lng / 1e5]`. -/
def decodePolyline (encoded : List ℕ) : List (ℚ × ℚ) :=
  decodeLoop encoded.length encoded 0 0

/-- Integer-level image of `decodeLoop` (the accumulated scaled deltas
before the division by 1e5), used to evaluate the decoder on concrete
inputs. -/
def decodeLoopZ : ℕ → List ℕ → ℤ → ℤ → List (ℤ × ℤ)
  | 0, _, _, _ => []
  | _ + 1, [], _, _ => []
  | fuel + 1, c :: rest, lat, lng =>
    let v1 := decodeVarint (c :: rest) 0 0
    let lat1 := lat + zigzagDecode v1.2
    let v2 := decodeVarint v1.1 0 0
    let lng1 := lng + zigzagDecode v2.2
    (lat1, lng1) :: decodeLoopZ fuel v2.1 lat1 lng1

theorem decodeLoop_eq_map_decodeLoopZ :
    ∀ (fuel : ℕ) (s : List ℕ) (lat lng : ℤ),
      decodeLoop fuel s lat lng
        = (decodeLoopZ fuel s lat lng).map
            (fun p => ((p.1 : ℚ) / 100000, (p.2 : ℚ) / 100000)) := by
  intro fuel
  induction fuel with
  | zero => intro s lat lng; rfl
  | succ f ih =>
    intro s lat lng
    cases s with
    | nil => rfl
    | cons c rest => simp only [decodeLoop, decodeLoopZ, List.map_cons, ih]

theorem decodeVarint_length_le :
    ∀ (s : List ℕ) (shift : ℕ) (result : ℤ),
      (decodeVarint s shift result).1.length ≤ s.length := by
  intro s
  induction s with
  | nil => intro shift result; exact Nat.le_refl _
  | cons c rest ih =>
    intro shift result
    simp only [decodeVarint]
    split
    · exact le_trans (ih _ _) (Nat.le_succ _)
    · exact Nat.le_succ _

theorem decodeVarint_length_lt (c : ℕ) (rest : List ℕ) (shift : ℕ) (result : ℤ) :
    (decodeVarint (c :: rest) shift result).1.length ≤ rest.length := by
  simp only [decodeVarint]
  split
  · exact decodeVarint_length_le _ _ _
  · exact Nat.le_refl _

theorem decodeLoop_fuel_eq :
    ∀ (f1 f2 : ℕ) (s : List ℕ) (lat lng : ℤ),
      s.length ≤ f1 → s.length ≤ f2 →
      decodeLoop f1 s lat lng = decodeLoop f2 s lat lng := by
  intro f1
  induction f1 with
  | zero =>
    intro f2 s lat lng h1 _
    rw [Nat.le_zero, List.length_eq_zero] at h1
    subst h1
    cases f2 <;> rfl
  | succ f ih =>
    intro f2 s lat lng h1 h2
    cases s with
    | nil => cases f2 <;> rfl
    | cons c rest =>
      cases f2 with
      | zero => simp at h2
      | succ f2p =>
        simp only [decodeLoop]
        have hlen : (decodeVarint (decodeVarint (c :: rest) 0 0).1 0 0).1.length
            ≤ rest.length :=
          le_trans (decodeVarint_length_le _ _ _) (decodeVarint_length_lt _ _ _ _)
        have hr1 : rest.length ≤ f := Nat.succ_le_succ_iff.mp h1
        have hr2 : rest.length ≤ f2p := Nat.succ_le_succ_iff.mp h2
        rw [ih f2p _ _ _ (le_trans hlen hr1) (le_trans hlen hr2)]

/-- Claim C10 (confirmed): `decodePolyline` terminates on every finite
input: the scan strictly consumes input on every inner-loop iteration
and reading past the end of the string yields a non-continuation value,
so the outer loop runs at most `encoded.length` iterations — running it
with ANY iteration budget of at least `encoded.length` yields the same
finite coordinate list. -/
theorem c10_theorem (encoded : List ℕ) (fuel : ℕ) (h : encoded.length ≤ fuel) :
    decodeLoop fuel encoded 0 0 = decodePolyline encoded :=
  decodeLoop_fuel_eq fuel encoded.length encoded 0 0 h (Nat.le_refl _)

/-- Witness for `c10_theorem`: the reference prefix with a generous
iteration budget. -/
theorem c10_witness :
    ([95, 112, 126, 105, 70] : List ℕ).length ≤ 100 ∧
      decodeLoop 100 [95, 112, 126, 105, 70] 0 0
        = decodePolyline [95, 112, 126, 105, 70] :=
  ⟨by decide, c10_theorem [95, 112, 126, 105, 70] 100 (by decide)⟩

/-- Claim C3 (counterexample): on the truncated input consisting of the
single character code 95 (`_`, whose continuation bit is set with no
byte following), `decodePolyline` does NOT fail: it terminates normally
and still pushes a coordinate pair, so the malformed chunk contributes
a point instead of being aborted by a raised DecodeError. -/
theorem c3_counterexample : decodePolyline [95] = [(0, 0)] := by
  have hz : decodeLoopZ 1 [95] 0 0 = [(0, 0)] := by decide
  show decodeLoop 1 [95] 0 0 = [(0, 0)]
  rw [decodeLoop_eq_map_decodeLoopZ, hz]
  norm_num

theorem decodeLoop_length_le :
    ∀ (fuel : ℕ) (s : List ℕ) (lat lng : ℤ),
      (decodeLoop fuel s lat lng).length ≤ s.length := by
  intro fuel
  induction fuel with
  | zero => intro s lat lng; simp [decodeLoop]
  | succ f ih =>
    intro s lat lng
    cases s with
    | nil => simp [decodeLoop]
    | cons c rest =>
      simp only [decodeLoop, List.length_cons]
      have hlen : (decodeVarint (decodeVarint (c :: rest) 0 0).1 0 0).1.length
          ≤ rest.length :=
        le_trans (decodeVarint_length_le _ _ _) (decodeVarint_length_lt _ _ _ _)
      exact Nat.succ_le_succ (le_trans (ih _ _ _) hlen)

/-- Claim C3 (amended): `decodePolyline` never raises and never loops on
malformed (truncated-continuation) input: reading past the end of the
string acts as a non-continuation byte, so the decoder always
terminates with a finite list of at most `encoded.length` coordinates —
the truncated group still contributes a (possibly spurious) final
coordinate rather than aborting the chunk. -/
theorem c3_theorem (encoded : List ℕ) :
    (decodePolyline encoded).length ≤ encoded.length :=
  decodeLoop_length_le encoded.length encoded 0 0

/-- The UTF-16 code units of the reference encoded polyline string
(underscore p tilde i F tilde p s bar U underscore u l L n n q C
underscore m q N v x q backtick at). -/
def polylineReference : List ℕ :=
  [95, 112, 126, 105, 70, 126, 112, 115, 124, 85, 95, 117, 108, 76,
   110, 110, 113, 67, 95, 109, 113, 78, 118, 120, 113, 96, 64]

/-- Claim C9 (confirmed): decoding the reference polyline string with
the standard 5-bit-group / continuation-bit-0x20 / zig-zag / 1e5-scale
scheme yields exactly the well-known coordinate sequence. -/
theorem c9_theorem :
    decodePolyline polylineReference
      = [(38.5, -120.2), (40.7, -120.95), (43.252, -126.453)] := by
  have hz : decodeLoopZ 27 polylineReference 0 0
      = [(3850000, -12020000), (4070000, -12095000), (4325200, -12645300)] := by
    decide
  show decodeLoop 27 polylineReference 0 0 = _
  rw [decodeLoop_eq_map_decodeLoopZ, hz]
  norm_num

/-! ## PointThinner (src/src/App.jsx lines 108-124) -/

/-- The loop of `thinPoints`: walk the remaining points, keeping a point
exactly when its distance from the last KEPT point (the state) is at
least `minDistance`. -/
noncomputable def thinGo (minDistance : ℝ) : Point → List Point → List Point
  | _, [] => []
  | last, current :: rest =>
    if calculateDistance (last.latitude : ℝ) (last.longitude : ℝ)
        (current.latitude : ℝ) (current.longitude : ℝ) ≥ minDistance
    then current :: thinGo minDistance current rest
    else thinGo minDistance last rest

/-- `thinPoints` from the source: inputs of fewer than 2 points pass
through; otherwise the first point is kept unconditionally and the loop
runs over the remaining points. -/
noncomputable def thinPoints (points : List Point) (minDistance : ℝ := 40) : List Point :=
  if points.length < 2 then points
  else points.headI :: thinGo minDistance points.headI points.tail

/-- The haversine distance between a point and itself is 0 (used to
exhibit a dropped final point). -/
theorem calculateDistance_self (lat lon : ℝ) : calculateDistance lat lon lat lon = 0 := by
  have h1 : (⟨1, 0⟩ : ℂ) = 1 := Complex.ext (by simp) (by simp)
  simp [calculateDistance, toRadians, atan2, h1, Complex.arg_one]

theorem thinGo_sublist (d : ℝ) :
    ∀ (rest : List Point) (last : Point), (thinGo d last rest).Sublist rest := by
  intro rest
  induction rest with
  | nil => intro last; simp [thinGo]
  | cons current rest ih =>
    intro last
    by_cases h : calculateDistance (last.latitude : ℝ) (last.longitude : ℝ)
        (current.latitude : ℝ) (current.longitude : ℝ) ≥ d
    · simp only [thinGo, if_pos h]
      exact List.Sublist.cons₂ current (ih current)
    · simp only [thinGo, if_neg h]
      exact List.Sublist.cons current (ih last)

theorem thinGo_chain (d : ℝ) :
    ∀ (rest : List Point) (last : Point),
      List.Chain (fun x y => d ≤ calculateDistance (x.latitude : ℝ) (x.longitude : ℝ)
        (y.latitude : ℝ) (y.longitude : ℝ)) last (thinGo d last rest) := by
  intro rest
  induction rest with
  | nil => intro last; exact List.Chain.nil
  | cons current rest ih =>
    intro last
    by_cases h : calculateDistance (last.latitude : ℝ) (last.longitude : ℝ)
        (current.latitude : ℝ) (current.longitude : ℝ) ≥ d
    · simp only [thinGo, if_pos h]
      exact List.Chain.cons h (ih current)
    · simp only [thinGo, if_neg h]
      exact ih last

/-- Claim C8 (confirmed): for every threshold `d ≥ 0`, `thinPoints`
returns a subsequence of its input whose head is the input head, is
nonempty when the input is, and in which any two consecutive kept
points are at least `d` apart (by `calculateDistance`); and the final
input point is NOT force-kept: on the two-point input below (same
coordinates, different timestamps, so the distance is 0 < 40) the last
point is dropped. -/
theorem c8_theorem :
    (∀ (minDistance : ℝ) (points : List Point), 0 ≤ minDistance →
      (thinPoints points minDistance).Sublist points ∧
      (thinPoints points minDistance).headI = points.headI ∧
      (points ≠ [] → thinPoints points minDistance ≠ []) ∧
      List.Chain' (fun x y => minDistance ≤ calculateDistance (x.latitude : ℝ)
        (x.longitude : ℝ) (y.latitude : ℝ) (y.longitude : ℝ))
        (thinPoints points minDistance)) ∧
    thinPoints [⟨0, 0, 0⟩, ⟨0, 0, 1⟩] 40 = [⟨0, 0, 0⟩] := by
  constructor
  · intro d points _
    by_cases hlen : points.length < 2
    · have heq : thinPoints points d = points := by rw [thinPoints, if_pos hlen]
      refine ⟨by rw [heq], by rw [heq], fun h => by rw [heq]; exact h, ?_⟩
      rw [heq]
      cases points with
      | nil => exact trivial
      | cons a t =>
        cases t with
        | nil => exact List.Chain.nil
        | cons b t2 => exact absurd hlen (by simp)
    · cases points with
      | nil => exact absurd (by decide) hlen
      | cons a tail =>
        rw [thinPoints, if_neg hlen]
        refine ⟨List.Sublist.cons₂ a (thinGo_sublist d tail a), rfl,
          fun _ => List.cons_ne_nil _ _, ?_⟩
        exact thinGo_chain d tail a
  · rw [thinPoints]
    norm_num [thinGo, calculateDistance_self]

/-- Witness for the universally quantified part of `c8_theorem`, at
threshold 0 and a concrete two-point input. -/
theorem c8_witness :
    (0 : ℝ) ≤ 0 ∧
      ((thinPoints [⟨1, 2, 3⟩] 0).Sublist [⟨1, 2, 3⟩] ∧
       (thinPoints [⟨1, 2, 3⟩] 0).headI = ([⟨1, 2, 3⟩] : List Point).headI ∧
       (([⟨1, 2, 3⟩] : List Point) ≠ [] → thinPoints [⟨1, 2, 3⟩] 0 ≠ []) ∧
       List.Chain' (fun x y => (0 : ℝ) ≤ calculateDistance (x.latitude : ℝ)
         (x.longitude : ℝ) (y.latitude : ℝ) (y.longitude : ℝ))
         (thinPoints [⟨1, 2, 3⟩] 0)) :=
  ⟨le_refl 0, c8_theorem.1 0 [⟨1, 2, 3⟩] (le_refl 0)⟩

/-! ## ZigzagRemover (src/src/App.jsx lines 78-105) -/

/-- The loop body of `removeZigzags` for the interior point `curr`
between `prev` and `next`: bearing of the incoming and outgoing leg,
absolute difference, folded to the shortest angular difference. -/
noncomputable def bearingDiff (prev curr next : Point) : ℝ :=
  let bearing1 := calculateBearing (prev.latitude : ℝ) (prev.longitude : ℝ)
    (curr.latitude : ℝ) (curr.longitude : ℝ)
  let bearing2 := calculateBearing (curr.latitude : ℝ) (curr.longitude : ℝ)
    (next.latitude : ℝ) (next.longitude : ℝ)
  let diff := |bearing2 - bearing1|
  if diff > 180 then 360 - diff else diff

/-- `removeZigzags` from the source: inputs of fewer than 3 points pass
through unchanged; otherwise `result = [points[0]]`, the loop over the
interior indices `i = 1 .. length-2` pushes `points[i]` exactly when
its bearing difference is strictly below the threshold, and the last
point is pushed unconditionally.  List indexing is total with the
default point, matching the always-in-bounds JavaScript accesses. -/
noncomputable def removeZigzags (points : List Point) (threshold : ℝ := 60) : List Point :=
  if points.length < 3 then points
  else
    (points.getD 0 default ::
      (List.range' 1 (points.length - 2)).filterMap fun i =>
        if bearingDiff (points.getD (i - 1) default) (points.getD i default)
            (points.getD (i + 1) default) < threshold
        then some (points.getD i default) else none)
    ++ [points.getD (points.length - 1) default]

/-- The sliding-window reading of the interior loop of `removeZigzags`:
walk consecutive triples of the input, keeping each middle point whose
bearing difference is strictly below the threshold. -/
noncomputable def zigzagInteriorSpec (threshold : ℝ) : List Point → List Point
  | a :: b :: c :: rest =>
    (if bearingDiff a b c < threshold then [b] else [])
      ++ zigzagInteriorSpec threshold (b :: c :: rest)
  | _ => []

theorem filterMap_congr_mem {α β : Type} :
    ∀ (l : List α) (f g : α → Option β), (∀ a ∈ l, f a = g a) →
      l.filterMap f = l.filterMap g := by
  intro l
  induction l with
  | nil => intro f g _; rfl
  | cons a l ih =>
    intro f g h
    simp only [List.filterMap_cons]
    rw [h a (List.mem_cons_self a l), ih f g fun x hx => h x (List.mem_cons_of_mem a hx)]

theorem range'_shift : ∀ (n s : ℕ), List.range' (s + 1) n = (List.range' s n).map (· + 1) := by
  intro n
  induction n with
  | zero => intro s; rfl
  | succ n ih =>
    intro s
    rw [List.range'_succ, List.range'_succ, List.map_cons, ih (s + 1)]

theorem zigzagInterior_eq :
    ∀ (threshold : ℝ) (rest : List Point) (a b c : Point),
      (List.range' 1 (rest.length + 1)).filterMap (fun i =>
          if bearingDiff ((a :: b :: c :: rest).getD (i - 1) default)
              ((a :: b :: c :: rest).getD i default)
              ((a :: b :: c :: rest).getD (i + 1) default) < threshold
          then some ((a :: b :: c :: rest).getD i default) else none)
        = zigzagInteriorSpec threshold (a :: b :: c :: rest) := by
  intro threshold rest
  induction rest with
  | nil =>
    intro a b c
    by_cases h : bearingDiff a b c < threshold <;>
      simp [zigzagInteriorSpec, List.range', h]
  | cons e rest2 ih =>
    intro a b c
    have hshift : List.range' 1 (rest2.length + 1 + 1)
        = 1 :: (List.range' 1 (rest2.length + 1)).map (· + 1) := by
      rw [List.range'_succ, range'_shift]
    rw [List.length_cons, hshift, List.filterMap_cons, List.filterMap_map]
    have hcong : ∀ i ∈ List.range' 1 (rest2.length + 1),
        ((fun i =>
            if bearingDiff ((a :: b :: c :: e :: rest2).getD (i - 1) default)
                ((a :: b :: c :: e :: rest2).getD i default)
                ((a :: b :: c :: e :: rest2).getD (i + 1) default) < threshold
            then some ((a :: b :: c :: e :: rest2).getD i default) else none) ∘ (· + 1)) i
          = (fun i =>
              if bearingDiff ((b :: c :: e :: rest2).getD (i - 1) default)
                  ((b :: c :: e :: rest2).getD i default)
                  ((b :: c :: e :: rest2).getD (i + 1) default) < threshold
              then some ((b :: c :: e :: rest2).getD i default) else none) i := by
      intro i hi
      have h1 : 1 ≤ i := (List.mem_range'_1.mp hi).1
      obtain ⟨j, rfl⟩ := Nat.exists_eq_add_of_le h1
      simp only [Function.comp_apply]
      have e1 : 1 + j + 1 - 1 = 1 + j := by omega
      have e2 : 1 + j - 1 = j := by omega
      rw [e1, e2]
      have g1 : (a :: b :: c :: e :: rest2).getD (1 + j) default
          = (b :: c :: e :: rest2).getD j default := by
        rw [Nat.add_comm 1 j, List.getD_cons_succ]
      have g2 : (a :: b :: c :: e :: rest2).getD (1 + j + 1) default
          = (b :: c :: e :: rest2).getD (j + 1) default := by
        rw [Nat.add_comm 1 j, List.getD_cons_succ]
      have g3 : (a :: b :: c :: e :: rest2).getD (1 + j + 1 + 1) default
          = (b :: c :: e :: rest2).getD (j + 1 + 1) default := by
        rw [Nat.add_comm 1 j, List.getD_cons_succ]
      rw [g1, g2, g3, Nat.add_comm 1 j]
    rw [filterMap_congr_mem _ _ _ hcong, ih b c e]
    by_cases h : bearingDiff a b c < threshold <;>
      simp [zigzagInteriorSpec, List.getD, h]

/-- Claim C7 (confirmed): for every threshold and every input of length
at least 3, `removeZigzags` returns the first point, then exactly those
interior points whose shortest angular bearing difference is strictly
below the threshold (the sliding-window reading `zigzagInteriorSpec`),
then the last point — first and last retained unconditionally; inputs
of length below 3 pass through unchanged. -/
theorem c7_theorem (threshold : ℝ) (points : List Point) :
    removeZigzags points threshold
      = if points.length < 3 then points
        else points.getD 0 default :: zigzagInteriorSpec threshold points
          ++ [points.getD (points.length - 1) default] := by
  by_cases h3 : points.length < 3
  · rw [removeZigzags, if_pos h3, if_pos h3]
  · rw [removeZigzags, if_neg h3, if_neg h3]
    match points, h3 with
    | [], h => exact absurd (by simp) h
    | [a], h => exact absurd (by simp) h
    | [a, b], h => exact absurd (by simp) h
    | a :: b :: c :: rest, _ =>
      have hlen : (a :: b :: c :: rest).length - 2 = rest.length + 1 := by
        simp
      rw [hlen, zigzagInterior_eq threshold rest a b c]

/-! ## Pipeline orchestration (src/src/App.jsx lines 138-299)

The two external services are modelled as inputs: `snapResp` is the
snap-service `locations` array (entries `none` for null / no match),
and `routeResp k` is the directions-service response to the `k`-th
issued request (`none` models a response carrying no routes).  Network
exceptions, which abort without touching state, are outside this pure
model. -/

/-- DistanceAccumulator: the distance loop of `processPoints`, summing
`calculateDistance` over consecutive pairs. -/
noncomputable def pathDistance : List Point → ℝ
  | a :: b :: rest =>
    calculateDistance (a.latitude : ℝ) (a.longitude : ℝ)
      (b.latitude : ℝ) (b.longitude : ℝ) + pathDistance (b :: rest)
  | _ => 0

/-- One element of the raw service payload (`body.data`): an optional
`[longitude, latitude]` pair (`none` models a missing or
non-2-element `location.coordinates`), an optional accuracy radius, and
the capture timestamp (`location_captured_on_timestamp`). -/
structure RawElement where
  coords : Option (ℚ × ℚ)
  accuracy : Option ℚ
  capturedAt : ℤ
deriving DecidableEq

/-- The extraction loop of `processPoints`: keep elements with a valid
coordinate pair whose accuracy is JavaScript-falsy (absent, or 0) or
strictly below 15; latitude is `coords[1]`, longitude is `coords[0]`. -/
def extractPoints (rawData : List RawElement) : List Point :=
  rawData.filterMap fun element =>
    match element.coords, element.accuracy with
    | some coords, none => some ⟨coords.2, coords.1, element.capturedAt⟩
    | some coords, some acc =>
      if acc = 0 ∨ acc < 15 then some ⟨coords.2, coords.1, element.capturedAt⟩
      else none
    | none, _ => none

/-- A directions-service route: the reported distance plus the encoded
polyline geometry (as character codes). -/
structure Route where
  distance : ℚ
  geometry : List ℕ

/-- The chunk loop of `fetchMapboxRoute`, with an explicit iteration
bound (each iteration drops 25 points, so `remaining.length` iterations
always suffice).  Returns the list of requested chunks (each a
`slice(i, i+25)` of at least 2 points), the accumulated decoded route,
and the accumulated service-reported distance; a chunk of fewer than 2
points breaks out of the loop, keeping what was accumulated. -/
def mapboxGo (routeResp : ℕ → Option Route) :
    ℕ → List Point → ℕ → List (List Point) × List (ℚ × ℚ) × ℚ
  | 0, _, _ => ([], [], 0)
  | _ + 1, [], _ => ([], [], 0)
  | fuel + 1, remaining@(_ :: _), k =>
    let segment := remaining.take 25
    if segment.length < 2 then ([], [], 0)
    else
      let rest := mapboxGo routeResp fuel (remaining.drop 25) (k + 1)
      match routeResp k with
      | some route =>
        (segment :: rest.1, decodePolyline route.geometry ++ rest.2.1,
         route.distance + rest.2.2)
      | none => (segment :: rest.1, rest.2.1, rest.2.2)

/-- `fetchMapboxRoute` from the source: process the snapped points in
chunks of 25 starting at index 0, then store the accumulated route
points and OVERWRITE `totalDistance` with the accumulated total (done
by the caller composition below). -/
def fetchMapboxRoute (routeResp : ℕ → Option Route) (pointsForRoute : List Point) :
    List (List Point) × List (ℚ × ℚ) × ℚ :=
  mapboxGo routeResp pointsForRoute.length pointsForRoute 0

/-- The component state slots carrying pipeline results (`useState`);
map center and the loading flag are presentation-only and omitted. -/
structure AppState where
  points : List Point
  filteredPoints : List Point
  orsPoints : List Point
  mapboxPoints : List (ℚ × ℚ)
  totalDistance : ℝ

/-- The initial component state. -/
noncomputable def initialState : AppState := ⟨[], [], [], [], 0⟩

/-- The snapped sequence built by `fetchORSSnap` from the snap-service
response: null entries are filtered out and each matched
`[longitude, latitude]` location becomes a point stamped with the
current time `now` (`Date.now()`). -/
def snapPoints (now : ℤ) (snapResp : List (Option (ℚ × ℚ))) : List Point :=
  snapResp.filterMap fun loc => loc.map fun l => ⟨l.2, l.1, now⟩

/-- `fetchORSSnap` composed with `fetchMapboxRoute` from the source:
store the snapped points, run the chunked routing on them, store the
accumulated decoded route, and overwrite `totalDistance` with the
accumulated service-reported total. -/
noncomputable def fetchORSSnap (now : ℤ) (snapResp : List (Option (ℚ × ℚ)))
    (routeResp : ℕ → Option Route) (st : AppState) : AppState :=
  let snappedPoints := snapPoints now snapResp
  let result := fetchMapboxRoute routeResp snappedPoints
  { st with
      orsPoints := snappedPoints
      mapboxPoints := result.2.1
      totalDistance := (result.2.2 : ℝ) }

/-- `processPoints` from the source: extract and accuracy-filter the
raw payload into `points`; if fewer than 2 fixes survive, stop with
downstream state untouched (no error); otherwise smooth, de-zigzag and
thin into `filteredPoints`, store the refined-path distance, and run
the snap and routing stages. -/
noncomputable def processPoints (now : ℤ) (snapResp : List (Option (ℚ × ℚ)))
    (routeResp : ℕ → Option Route) (body : Option (List RawElement))
    (st : AppState) : AppState :=
  match body with
  | none => st
  | some rawData =>
    let extractedPoints := extractPoints rawData
    let st1 := { st with points := extractedPoints }
    if extractedPoints.length < 2 then st1
    else
      let processed := thinPoints (removeZigzags (applyKalmanFilter extractedPoints) 60) 40
      let st2 := { st1 with
        filteredPoints := processed
        totalDistance := pathDistance processed }
      fetchORSSnap now snapResp routeResp st2

/-- The running total of the service-reported distances over `n`
consecutive requests starting at request index `k` (`none` responses
report nothing). -/
def reportedSum (routeResp : ℕ → Option Route) : ℕ → ℕ → ℚ
  | _, 0 => 0
  | k, n + 1 =>
    (match routeResp k with
     | some route => route.distance
     | none => 0) + reportedSum routeResp (k + 1) n

theorem mapboxGo_chunks_indep :
    ∀ (fuel : ℕ) (rem : List Point) (k : ℕ) (r1 r2 : ℕ → Option Route),
      (mapboxGo r1 fuel rem k).1 = (mapboxGo r2 fuel rem k).1 := by
  intro fuel
  induction fuel with
  | zero => intro rem k r1 r2; rfl
  | succ f ih =>
    intro rem k r1 r2
    cases rem with
    | nil => rfl
    | cons a tl =>
      by_cases hc : ((a :: tl).take 25).length < 2
      · simp only [mapboxGo, if_pos hc]
      · simp only [mapboxGo, if_neg hc]
        cases h1 : r1 k <;> cases h2 : r2 k <;>
          exact congrArg (fun l => (a :: tl).take 25 :: l) (ih ((a :: tl).drop 25) (k + 1) r1 r2)

theorem mapboxGo_totalDist :
    ∀ (fuel : ℕ) (rem : List Point) (k : ℕ) (routeResp : ℕ → Option Route),
      (mapboxGo routeResp fuel rem k).2.2
        = reportedSum routeResp k (mapboxGo routeResp fuel rem k).1.length := by
  intro fuel
  induction fuel with
  | zero => intro rem k routeResp; rfl
  | succ f ih =>
    intro rem k routeResp
    cases rem with
    | nil => rfl
    | cons a tl =>
      by_cases hc : ((a :: tl).take 25).length < 2
      · simp only [mapboxGo, if_pos hc]
        rfl
      · simp only [mapboxGo, if_neg hc]
        cases h : routeResp k
        · simp only [List.length_cons, reportedSum, h, zero_add]
          exact ih ((a :: tl).drop 25) (k + 1) routeResp
        · simp only [List.length_cons, reportedSum, h]
          rw [ih ((a :: tl).drop 25) (k + 1) routeResp]

theorem mapboxGo_cons_fst (routeResp : ℕ → Option Route) (f : ℕ) (a : Point)
    (tl : List Point) (k : ℕ) (hc : ¬ ((a :: tl).take 25).length < 2) :
    (mapboxGo routeResp (f + 1) (a :: tl) k).1
      = (a :: tl).take 25 :: (mapboxGo routeResp f ((a :: tl).drop 25) (k + 1)).1 := by
  rw [mapboxGo, if_neg hc]
  cases routeResp k <;> rfl

theorem mapboxGo_short_eq (routeResp : ℕ → Option Route) (f : ℕ) (a : Point)
    (tl : List Point) (k : ℕ) (hc : ((a :: tl).take 25).length < 2) :
    mapboxGo routeResp (f + 1) (a :: tl) k = ([], [], 0) := by
  rw [mapboxGo, if_pos hc]

theorem mapboxGo_chunk_bounds :
    ∀ (fuel : ℕ) (rem : List Point) (k : ℕ) (routeResp : ℕ → Option Route)
      (c : List Point), c ∈ (mapboxGo routeResp fuel rem k).1 →
        2 ≤ c.length ∧ c.length ≤ 25 := by
  intro fuel
  induction fuel with
  | zero => intro rem k routeResp c hmem; simp [mapboxGo] at hmem
  | succ f ih =>
    intro rem k routeResp c hmem
    cases rem with
    | nil => simp [mapboxGo] at hmem
    | cons a tl =>
      by_cases hc : ((a :: tl).take 25).length < 2
      · rw [mapboxGo_short_eq routeResp f a tl k hc] at hmem
        exact absurd hmem (List.not_mem_nil c)
      · rw [mapboxGo_cons_fst routeResp f a tl k hc] at hmem
        cases List.mem_cons.mp hmem with
        | inl hseg =>
          subst hseg
          refine ⟨Nat.not_lt.mp hc, ?_⟩
          rw [List.length_take]
          exact min_le_left _ _
        | inr hrest => exact ih _ _ _ _ hrest

theorem mapboxGo_flatten_take :
    ∀ (fuel : ℕ) (rem : List Point) (k : ℕ) (routeResp : ℕ → Option Route),
      ∃ n, (mapboxGo routeResp fuel rem k).1.flatten = rem.take n := by
  intro fuel
  induction fuel with
  | zero => intro rem k routeResp; exact ⟨0, rfl⟩
  | succ f ih =>
    intro rem k routeResp
    cases rem with
    | nil => exact ⟨0, rfl⟩
    | cons a tl =>
      by_cases hc : ((a :: tl).take 25).length < 2
      · exact ⟨0, by rw [mapboxGo_short_eq routeResp f a tl k hc]; rfl⟩
      · obtain ⟨m, hm⟩ := ih ((a :: tl).drop 25) (k + 1) routeResp
        refine ⟨25 + m, ?_⟩
        rw [mapboxGo_cons_fst routeResp f a tl k hc, List.flatten_cons, hm,
          ← List.take_add]

/-- A simple concrete point used to build the example inputs. -/
def mkPt (n : ℕ) : Point := ⟨(n : ℚ), 0, 0⟩

/-- Thirty distinct snapped points. -/
def pts30 : List Point := (List.range 30).map mkPt

/-- Twenty-six distinct snapped points. -/
def pts26 : List Point := (List.range 26).map mkPt

/-- Claim C6 (confirmed): the routing stage partitions the snapped
sequence into consecutive chunks of at most 25 points taken in order
from the front (every requested chunk has between 2 and 25 points, and
the requested chunks flatten to a prefix of the input); 30 snapped
points yield exactly 2 requests of 25 and 5 points; 26 snapped points
yield exactly 1 request of 25 points because the 1-point second chunk
breaks the loop first; and in that run the already-accumulated route
and service distance of the completed chunk are kept as the result. -/
theorem c6_theorem :
    (∀ (routeResp : ℕ → Option Route) (pts : List Point) (c : List Point),
      c ∈ (fetchMapboxRoute routeResp pts).1 → 2 ≤ c.length ∧ c.length ≤ 25) ∧
    (∀ (routeResp : ℕ → Option Route) (pts : List Point),
      ∃ n, (fetchMapboxRoute routeResp pts).1.flatten = pts.take n) ∧
    (∀ routeResp : ℕ → Option Route,
      (fetchMapboxRoute routeResp pts30).1.map List.length = [25, 5]) ∧
    (∀ routeResp : ℕ → Option Route,
      (fetchMapboxRoute routeResp pts26).1.map List.length = [25]) ∧
    (∀ route : Route,
      (fetchMapboxRoute (fun _ => some route) pts26).2.1 = decodePolyline route.geometry ∧
      (fetchMapboxRoute (fun _ => some route) pts26).2.2 = route.distance) := by
  refine ⟨fun routeResp pts c hmem => mapboxGo_chunk_bounds _ _ _ _ _ hmem,
    fun routeResp pts => mapboxGo_flatten_take _ _ _ _, ?_, ?_, ?_⟩
  · intro routeResp
    show ((mapboxGo routeResp pts30.length pts30 0).1.map List.length) = [25, 5]
    rw [mapboxGo_chunks_indep pts30.length pts30 0 routeResp (fun _ => none)]
    decide
  · intro routeResp
    show ((mapboxGo routeResp pts26.length pts26 0).1.map List.length) = [25]
    rw [mapboxGo_chunks_indep pts26.length pts26 0 routeResp (fun _ => none)]
    decide
  · intro route
    constructor
    · show decodePolyline route.geometry ++ [] = decodePolyline route.geometry
      exact List.append_nil _
    · show route.distance + 0 = route.distance
      exact add_zero _

/-- Witness for the universally quantified membership part of
`c6_theorem`: the single chunk of a two-point input. -/
theorem c6_witness :
    [mkPt 0, mkPt 1] ∈ (fetchMapboxRoute (fun _ => none) [mkPt 0, mkPt 1]).1 ∧
      (2 ≤ ([mkPt 0, mkPt 1] : List Point).length ∧
        ([mkPt 0, mkPt 1] : List Point).length ≤ 25) :=
  have hmem : [mkPt 0, mkPt 1] ∈ (fetchMapboxRoute (fun _ => none) [mkPt 0, mkPt 1]).1 :=
    List.mem_singleton.mpr rfl
  ⟨hmem, c6_theorem.1 (fun _ => none) [mkPt 0, mkPt 1] [mkPt 0, mkPt 1] hmem⟩

/-- The accuracy gate in the words of the spec: keep a fix whose accuracy is
absent OR strictly less than 15 meters. -/
def accuracyKeepSpec (element : RawElement) : Bool :=
  match element.accuracy with
  | none => true
  | some v => decide (v < 15)

/-- The Chennai example fixes: accuracies 5, 20 and 8 with the raw
`[longitude, latitude]` coordinate order of the payload. -/
def chennaiFixes : List RawElement :=
  [⟨some (80.2707, 13.0827), some 5, 1⟩,
   ⟨some (80.2710, 13.0830), some 20, 2⟩,
   ⟨some (80.2715, 13.0835), some 8, 3⟩]

/-- Claim C5 (confirmed): the extraction returns exactly the
subsequence of fixes whose accuracy is absent or strictly below 15
(the JavaScript falsy-0 special case coincides with `0 < 15`); on the
Chennai example only the second fix is dropped; and when fewer than 2
fixes survive, `processPoints` stops with all downstream state still
empty — a normal outcome, not an error. -/
theorem c5_theorem :
    (∀ rawData : List RawElement,
      extractPoints rawData
        = (rawData.filter accuracyKeepSpec).filterMap fun e =>
            e.coords.map fun coords => (⟨coords.2, coords.1, e.capturedAt⟩ : Point)) ∧
    extractPoints chennaiFixes = [⟨13.0827, 80.2707, 1⟩, ⟨13.0835, 80.2715, 3⟩] ∧
    (∀ (now : ℤ) (snapResp : List (Option (ℚ × ℚ)))
      (routeResp : ℕ → Option Route) (rawData : List RawElement),
      (extractPoints rawData).length < 2 →
      processPoints now snapResp routeResp (some rawData) initialState
        = { initialState with points := extractPoints rawData }) := by
  refine ⟨?_, ?_, ?_⟩
  · intro rawData
    induction rawData with
    | nil => rfl
    | cons e rest ih =>
      rcases hco : e.coords with _ | coords <;> rcases hacc : e.accuracy with _ | acc
      · simp [extractPoints, List.filterMap_cons, List.filter_cons, accuracyKeepSpec,
          hco, hacc] at ih ⊢
        exact ih
      · by_cases hlt : acc < 15 <;>
          · simp [extractPoints, List.filterMap_cons, List.filter_cons, accuracyKeepSpec,
              hco, hacc, hlt] at ih ⊢
            exact ih
      · simp [extractPoints, List.filterMap_cons, List.filter_cons, accuracyKeepSpec,
          hco, hacc] at ih ⊢
        exact ih
      · by_cases hlt : acc < 15
        · have hor : acc = 0 ∨ acc < 15 := Or.inr hlt
          simp [extractPoints, List.filterMap_cons, List.filter_cons, accuracyKeepSpec,
            hco, hacc, hlt, hor] at ih ⊢
          exact ih
        · have hne : acc ≠ 0 := fun h0 => hlt (h0 ▸ by norm_num)
          simp [extractPoints, List.filterMap_cons, List.filter_cons, accuracyKeepSpec,
            hco, hacc, hlt, hne] at ih ⊢
          exact ih
  · norm_num [extractPoints, chennaiFixes, List.filterMap_cons]
  · intro now snapResp routeResp rawData h
    simp only [processPoints, if_pos h]

/-- Witness for the short-circuit part of `c5_theorem`, at the empty
payload. -/
theorem c5_witness :
    (extractPoints []).length < 2 ∧
      processPoints 0 [] (fun _ => none) (some []) initialState
        = { initialState with points := extractPoints [] } :=
  ⟨by decide, c5_theorem.2.2 0 [] (fun _ => none) [] (by decide)⟩

/-- Claim C2 (confirmed): whenever the routing stage executes (at least
2 fixes survive extraction), the exposed `totalDistance` after
`processPoints` equals the running sum of the service-reported segment
distances over the issued chunk requests — for EVERY starting state
`st`, so the refined-path distance stored earlier by the
DistanceAccumulator stage is unconditionally overwritten (replaced, not
added to) by the directions-service total. -/
theorem c2_theorem (now : ℤ) (snapResp : List (Option (ℚ × ℚ)))
    (routeResp : ℕ → Option Route) (rawData : List RawElement) (st : AppState)
    (h : 2 ≤ (extractPoints rawData).length) :
    (processPoints now snapResp routeResp (some rawData) st).totalDistance
      = ((reportedSum routeResp 0
          (fetchMapboxRoute routeResp (snapPoints now snapResp)).1.length : ℚ) : ℝ) := by
  have hlt : ¬ (extractPoints rawData).length < 2 := Nat.not_lt.mpr h
  simp only [processPoints, if_neg hlt, fetchORSSnap, fetchMapboxRoute]
  exact congrArg _ (mapboxGo_totalDist _ _ _ _)

/-- A two-fix payload whose fixes both carry no accuracy. -/
def rawPair : List RawElement := [⟨some (1, 2), none, 0⟩, ⟨some (3, 4), none, 1⟩]

/-- Witness for `c2_theorem` at a concrete run: two surviving fixes, an
empty snap response, and a routeless directions service. -/
theorem c2_witness :
    2 ≤ (extractPoints rawPair).length ∧
      (processPoints 0 [] (fun _ => none) (some rawPair) initialState).totalDistance
        = ((reportedSum (fun _ => none) 0
            (fetchMapboxRoute (fun _ => none) (snapPoints 0 [])).1.length : ℚ) : ℝ) :=
  ⟨by decide, c2_theorem 0 [] (fun _ => none) rawPair initialState (by decide)⟩

end MapCheck
